import Mathlib

/-!
Verification of the meta-ads-manager campaign pipeline.

Shallow embedding of the AI-to-platform campaign materialization pipeline of
the `meta-ads-manager` application:

* `services/claude-ai.js` : `sanitizeMessages` (conversation normalizer) and
  `extractCampaignSpec` (spec extractor, two regex-driven strategies over
  `JSON.parse`);
* `services/meta-api.js` : the request bodies built by `createCampaign`,
  `createAdSet`, `createAdCreative`, `createAd`;
* `routes/campaigns.js` : the `create-from-spec` handler (materialization
  orchestrator), modelled over an explicit platform-client mock
  `Nat → Except String PlatformObject` (the n-th call result), with the
  sequence of issued platform calls recorded as a trace.

JavaScript values that flow through these functions are modelled by the
`Json` inductive (with an `undef` constructor for `undefined`); JavaScript
exceptions of `JSON.parse` are modelled by `Option`; the platform client
raising is modelled by `Except String`.
-/

/-- JSON / JavaScript values. `num m e` denotes the number `m * 10 ^ e`
(kept unnormalized exactly as parsed, so parsing stays deterministic without
committing to IEEE-754 behavior). `undef` models the JavaScript value
`undefined`; it is never produced by `jsonParse`. -/
inductive Json where
  | null : Json
  | undef : Json
  | bool : Bool → Json
  | num : Int → Int → Json
  | str : String → Json
  | arr : List Json → Json
  | obj : List (String × Json) → Json

/-- JavaScript truthiness of a value. `null`, `undefined`, `false`, `0` and
the empty string are falsy; every object and array is truthy. -/
def jsTruthy : Json → Bool
  | Json.null => false
  | Json.undef => false
  | Json.bool b => b
  | Json.num m _ => !(m = 0)
  | Json.str s => !(s = "")
  | Json.arr _ => true
  | Json.obj _ => true

/-- Reading an optional (possibly absent) property: an absent property reads
as `undefined`. -/
def jsOpt (v : Option Json) : Json := v.getD Json.undef

/-- The JavaScript `a || b` default idiom: `b` whenever `a` is absent or
falsy. -/
def jsDefault (v : Option Json) (d : Json) : Json :=
  match v with
  | some j => if jsTruthy j then j else d
  | none => d

/-- JavaScript property assignment `o[k] = v` on a plain object: an existing
key keeps its position and gets the new value, a new key is appended. -/
def objSet : List (String × Json) → String → Json → List (String × Json)
  | [], k, v => [(k, v)]
  | (k2, v2) :: rest, k, v =>
      if k2 = k then (k, v) :: rest else (k2, v2) :: objSet rest k v

/-- JavaScript property read `o[k]` (as an `Option`). -/
def objGet (o : List (String × Json)) (k : String) : Option Json :=
  (o.find? (fun p => p.1 = k)).map (fun p => p.2)

/-- The object-spread `{ ...o, ...extra }` tail: assign every pair of
`extra` in order. -/
def objSpread (o : List (String × Json)) (extra : List (String × Json)) :
    List (String × Json) :=
  extra.foldl (fun acc kv => objSet acc kv.1 kv.2) o

/-- The `if (params.x) body.x = params.x` idiom of `meta-api.js`: assign the
key only when the value is present and truthy. -/
def condSet (o : List (String × Json)) (k : String) (v : Option Json) :
    List (String × Json) :=
  match v with
  | some j => if jsTruthy j then objSet o k j else o
  | none => o

/-!
JSON.parse: a total recursive-descent parser for the ECMAScript
`JSON.parse` grammar. `none` models `JSON.parse` throwing a SyntaxError.
The recursion is structural on a fuel argument; `jsonParse` supplies
`2 * length + 2` fuel, which exceeds the number of recursive steps any
input of that length can cause (every two consecutive steps consume at
least one character). -/

/-- JSON insignificant whitespace. -/
def jsonWs (c : Char) : Bool :=
  c = ' ' || c = '\t' || c = '\n' || c = '\r'

/-- Skip insignificant whitespace. -/
def skipWs : List Char → List Char
  | [] => []
  | c :: rest => if jsonWs c then skipWs rest else c :: rest

/-- Hexadecimal digit value. -/
def hexVal (c : Char) : Option Nat :=
  if '0' ≤ c ∧ c ≤ '9' then some (c.toNat - '0'.toNat)
  else if 'a' ≤ c ∧ c ≤ 'f' then some (c.toNat - 'a'.toNat + 10)
  else if 'A' ≤ c ∧ c ≤ 'F' then some (c.toNat - 'A'.toNat + 10)
  else none

/-- Body of a JSON string literal, after the opening quote: the decoded
characters and the remainder after the closing quote. Raw control
characters are a syntax error, as in `JSON.parse`. -/
def parseStringRest : List Char → Option (List Char × List Char)
  | [] => none
  | '"' :: rest => some ([], rest)
  | '\\' :: e :: rest =>
      match e with
      | '"' => (parseStringRest rest).map (fun p => ('"' :: p.1, p.2))
      | '\\' => (parseStringRest rest).map (fun p => ('\\' :: p.1, p.2))
      | '/' => (parseStringRest rest).map (fun p => ('/' :: p.1, p.2))
      | 'b' => (parseStringRest rest).map (fun p => ('\x08' :: p.1, p.2))
      | 'f' => (parseStringRest rest).map (fun p => ('\x0c' :: p.1, p.2))
      | 'n' => (parseStringRest rest).map (fun p => ('\n' :: p.1, p.2))
      | 'r' => (parseStringRest rest).map (fun p => ('\r' :: p.1, p.2))
      | 't' => (parseStringRest rest).map (fun p => ('\t' :: p.1, p.2))
      | 'u' =>
          match rest with
          | h1 :: h2 :: h3 :: h4 :: rest2 =>
              match hexVal h1, hexVal h2, hexVal h3, hexVal h4 with
              | some a, some b, some c, some d =>
                  (parseStringRest rest2).map
                    (fun p => (Char.ofNat (((a * 16 + b) * 16 + c) * 16 + d) :: p.1, p.2))
              | _, _, _, _ => none
          | _ => none
      | _ => none
  | c :: rest =>
      if c.toNat < 32 then none
      else (parseStringRest rest).map (fun p => (c :: p.1, p.2))

/-- Longest leading run of decimal digits, returned with the remainder. -/
def takeDigits : List Char → List Char × List Char
  | [] => ([], [])
  | c :: rest =>
      if '0' ≤ c ∧ c ≤ '9' then
        let p := takeDigits rest
        (c :: p.1, p.2)
      else ([], c :: rest)

/-- Decimal digits to a natural number. -/
def digitsToNat (ds : List Char) : Nat :=
  ds.foldl (fun acc c => acc * 10 + (c.toNat - '0'.toNat)) 0

/-- Exponent part of a JSON number after `e` or `E`: optional sign then at
least one digit. -/
def parseExpTail (r : List Char) : Option (Int × List Char) :=
  let signed : Bool × List Char :=
    match r with
    | '+' :: r2 => (false, r2)
    | '-' :: r2 => (true, r2)
    | _ => (false, r)
  match takeDigits signed.2 with
  | ([], _) => none
  | (ds, r2) =>
      some (if signed.1 then -(digitsToNat ds : Int) else (digitsToNat ds : Int), r2)

/-- JSON number grammar: optional minus, integer part without leading
zeros, optional fraction, optional exponent. Returns the unnormalized
mantissa/exponent pair and the remainder. -/
def parseNum (cs : List Char) : Option (Json × List Char) :=
  let signed : Bool × List Char :=
    match cs with
    | '-' :: r => (true, r)
    | _ => (false, cs)
  let neg := signed.1
  match takeDigits signed.2 with
  | ([], _) => none
  | ('0' :: _ :: _, _) => none
  | (intDs, rest1) =>
      let fracP : Option (List Char × List Char) :=
        match rest1 with
        | '.' :: r =>
            match takeDigits r with
            | ([], _) => none
            | (ds, r2) => some (ds, r2)
        | _ => some ([], rest1)
      match fracP with
      | none => none
      | some (fracDs, rest2) =>
          let expP : Option (Int × List Char) :=
            match rest2 with
            | 'e' :: r => parseExpTail r
            | 'E' :: r => parseExpTail r
            | _ => some (0, rest2)
          match expP with
          | none => none
          | some (e, rest3) =>
              let mant : Nat := digitsToNat (intDs ++ fracDs)
              let m : Int := if neg then -(mant : Int) else (mant : Int)
              some (Json.num m (e - fracDs.length), rest3)

/-- Parsing mode of the single fuel-indexed core: one value, the elements of
an array after the first has been reached, or the members of an object after
the first has been reached. -/
inductive PMode where
  | val : PMode
  | elems : PMode
  | members : PMode

/-- Result of the core: a value, an element list, or a member list. -/
inductive POut where
  | v : Json → POut
  | vs : List Json → POut
  | kvs : List (String × Json) → POut

/-- Duplicate keys in an object literal: later occurrences win, first
position kept (`JSON.parse` semantics). -/
def objFromPairs (ps : List (String × Json)) : List (String × Json) :=
  ps.foldl (fun acc kv => objSet acc kv.1 kv.2) []

/-- The parser core. Structural recursion on fuel so that concrete runs
reduce inside the kernel. -/
def parseCore : Nat → PMode → List Char → Option (POut × List Char)
  | 0, _, _ => none
  | Nat.succ fuel, PMode.val, cs =>
      match skipWs cs with
      | 'n' :: 'u' :: 'l' :: 'l' :: rest => some (POut.v Json.null, rest)
      | 't' :: 'r' :: 'u' :: 'e' :: rest => some (POut.v (Json.bool true), rest)
      | 'f' :: 'a' :: 'l' :: 's' :: 'e' :: rest => some (POut.v (Json.bool false), rest)
      | '"' :: rest =>
          (parseStringRest rest).map (fun p => (POut.v (Json.str (String.mk p.1)), p.2))
      | '[' :: rest =>
          (match skipWs rest with
           | ']' :: rest2 => some (POut.v (Json.arr []), rest2)
           | cs2 =>
              match parseCore fuel PMode.elems cs2 with
              | some (POut.vs js, rest2) => some (POut.v (Json.arr js), rest2)
              | _ => none)
      | c :: rest =>
          if c = '\x7b' then
            (match skipWs rest with
             | cs2 =>
                if cs2.head? = some '\x7d' then
                  some (POut.v (Json.obj []), cs2.tail)
                else
                  match parseCore fuel PMode.members cs2 with
                  | some (POut.kvs ps, rest2) => some (POut.v (Json.obj (objFromPairs ps)), rest2)
                  | _ => none)
          else (parseNum (c :: rest)).map (fun p => (POut.v p.1, p.2))
      | [] => none
  | Nat.succ fuel, PMode.elems, cs =>
      match parseCore fuel PMode.val cs with
      | some (POut.v j, rest) =>
          (match skipWs rest with
           | ']' :: rest2 => some (POut.vs [j], rest2)
           | ',' :: rest2 =>
              match parseCore fuel PMode.elems rest2 with
              | some (POut.vs js, rest3) => some (POut.vs (j :: js), rest3)
              | _ => none
           | _ => none)
      | _ => none
  | Nat.succ fuel, PMode.members, cs =>
      match skipWs cs with
      | '"' :: rest =>
          (match parseStringRest rest with
           | some (kcs, rest1) =>
              (match skipWs rest1 with
               | ':' :: rest2 =>
                  (match parseCore fuel PMode.val rest2 with
                   | some (POut.v j, rest3) =>
                      (match skipWs rest3 with
                       | ',' :: rest4 =>
                          (match parseCore fuel PMode.members rest4 with
                           | some (POut.kvs ps, rest5) =>
                              some (POut.kvs ((String.mk kcs, j) :: ps), rest5)
                           | _ => none)
                       | c :: rest4 =>
                          if c = '\x7d' then
                            some (POut.kvs [(String.mk kcs, j)], rest4)
                          else none
                       | [] => none)
                   | _ => none)
               | _ => none)
           | none => none)
      | _ => none

/-- `JSON.parse`: parse one value, allow trailing whitespace only. `none`
models a thrown `SyntaxError`. -/
def jsonParse (s : String) : Option Json :=
  match parseCore (2 * s.length + 2) PMode.val s.data with
  | some (POut.v j, rest) => if skipWs rest = [] then some j else none
  | _ => none

/-!
extractCampaignSpec of services/claude-ai.js tries, in order: a fenced
json code block whose capture parses, then a brace-matched substring
containing a campaign key, then null. Each attempt wraps JSON.parse in a
try/catch whose catch falls through to the next strategy.

The two regexes are modelled by direct string scanning with the exact
leftmost-match semantics of the JavaScript engine:

* the lazy fenced-block regex captures from the first occurrence of the
  7 characters of a backtick fence followed by the word json (skipping one
  immediately following newline) up to the first later triple backtick;
* the greedy brace regex matches from the first opening brace that is
  followed (strictly later) by the 10 characters of a quoted campaign key
  which are in turn followed by a closing brace, up to the last closing
  brace of the whole text (greedy backtracking of the dot-all star).
-/

/-- Does `pat` occur as the initial segment of `s`? -/
def startsWithList : List Char → List Char → Bool
  | [], _ => true
  | _ :: _, [] => false
  | p :: ps, c :: cs => p = c && startsWithList ps cs

/-- Index of the first occurrence of `pat` in `s`. -/
def findIdxOfSeq (pat : List Char) : List Char → Option Nat
  | [] => if pat = [] then some 0 else none
  | c :: cs =>
      if startsWithList pat (c :: cs) then some 0
      else (findIdxOfSeq pat cs).map (· + 1)

/-- The capture of `/```json\n?([\s\S]*?)```/`, when the regex matches. -/
def fencedCapture (s : String) : Option String :=
  let cs := s.data
  match findIdxOfSeq ("```json".data) cs with
  | none => none
  | some i =>
      let afterTag := cs.drop (i + 7)
      let body := match afterTag with
        | '\n' :: r => r
        | r => r
      match findIdxOfSeq ("```".data) body with
      | none => none
      | some j => some (String.mk (body.take j))

/-- The 10-character pattern `"campaign"` (with its quotes). -/
def quotedCampaign : List Char := '"' :: "campaign".data ++ ['"']

/-- Is there an occurrence of `"campaign"` in `cs` with a closing brace
after it? (If the first occurrence has no closing brace after it, no later
occurrence does either.) -/
def hasCampaignThenBrace (cs : List Char) : Bool :=
  match findIdxOfSeq quotedCampaign cs with
  | none => false
  | some q => (cs.drop (q + 10)).contains '\x7d'

/-- Index of the first opening brace that starts a viable greedy match. -/
def looseStartAux : List Char → Nat → Option Nat
  | [], _ => none
  | c :: rest, p =>
      if c = '\x7b' && hasCampaignThenBrace rest then some p
      else looseStartAux rest (p + 1)

/-- Scan for the index of the last closing brace, carrying the current
index and the last hit. -/
def lastBraceAux : List Char → Nat → Option Nat → Option Nat
  | [], _, acc => acc
  | c :: rest, i, acc =>
      lastBraceAux rest (i + 1) (if c = '\x7d' then some i else acc)

/-- Index of the last closing brace. -/
def lastBraceIdx (cs : List Char) : Option Nat :=
  lastBraceAux cs 0 none

/-- The full match of `/\{[\s\S]*"campaign"[\s\S]*\}/`, when it matches. -/
def looseMatch (s : String) : Option String :=
  let cs := s.data
  match looseStartAux cs 0 with
  | none => none
  | some p =>
      match lastBraceIdx cs with
      | none => none
      | some r => some (String.mk ((cs.drop p).take (r + 1 - p)))

/-- First strategy: fenced code block, then `JSON.parse` on the capture.
`none` covers both no-match and parse failure. -/
def fencedParse (s : String) : Option Json :=
  (fencedCapture s).bind jsonParse

/-- Second strategy: brace-matched substring containing a `"campaign"` key,
then `JSON.parse` on the match. -/
def looseParse (s : String) : Option Json :=
  (looseMatch s).bind jsonParse

/-- `extractCampaignSpec` of `services/claude-ai.js`: first strategy wins
when its parse succeeds, otherwise the second strategy, otherwise `null`. -/
def extractCampaignSpec (s : String) : Option Json :=
  match fencedCapture s with
  | some cap =>
      match jsonParse cap with
      | some j => some j
      | none => looseParse s
  | none => looseParse s

/-!
sanitizeMessages of services/claude-ai.js: returns the empty list for a
non-array or empty input; filters out falsy entries, entries whose role or
content is not a string, and entries with whitespace-only content; coerces
every role other than assistant to user; merges consecutive same-role
entries by concatenating their content with a paragraph break; and finally
prepends a synthetic Hello user turn when the first merged entry is not a
user turn. When everything was filtered out it returns the empty list.

An input entry is `Option RawMessage`: `none` models a falsy array element,
and each of role/content is `none` when the property is absent or not a
string. A non-array input returns the empty list exactly like an empty one,
so the typed embedding takes a list. -/

/-- An incoming, untrusted chat entry. -/
structure RawMessage where
  role : Option String
  content : Option String
deriving DecidableEq

/-- A normalized chat entry. -/
structure ChatMessage where
  role : String
  content : String
deriving DecidableEq

/-- Characters removed by JavaScript `String.prototype.trim`. -/
def jsWhitespace (c : Char) : Bool :=
  c = ' ' || c = '\t' || c = '\n' || c = '\r' || c = '\x0b' || c = '\x0c' || c = '\xa0'

/-- `m.content.trim()` is truthy iff some character survives trimming. -/
def jsTrimNonempty (s : String) : Bool :=
  s.data.any (fun c => !(jsWhitespace c))

/-- The filter/map stage: drop falsy entries, entries with non-string
role/content and whitespace-only content; coerce every role other than
`assistant` to `user`. -/
def cleanedMessages (msgs : List (Option RawMessage)) : List ChatMessage :=
  msgs.filterMap (fun mo =>
    match mo with
    | none => none
    | some m =>
        match m.role, m.content with
        | some r, some c =>
            if jsTrimNonempty c then
              some { role := if r = "assistant" then "assistant" else "user", content := c }
            else none
        | _, _ => none)

/-- The merge loop: concatenate runs of same-role entries with a paragraph
break, preserving order. `prev` is the last element of the merged list so
far. -/
def mergeLoop (prev : ChatMessage) : List ChatMessage → List ChatMessage
  | [] => [prev]
  | x :: xs =>
      if x.role = prev.role then
        mergeLoop { role := prev.role, content := prev.content ++ "\n\n" ++ x.content } xs
      else
        prev :: mergeLoop x xs

/-- The merged sequence before the user-first fix-up. -/
def mergedMessages (msgs : List (Option RawMessage)) : List ChatMessage :=
  match cleanedMessages msgs with
  | [] => []
  | c :: cs => mergeLoop c cs

/-- `sanitizeMessages`: filter, coerce, merge; prepend a synthetic `Hello`
user turn when the first merged entry is not a user turn; empty when
nothing survives filtering. -/
def sanitizeMessages (msgs : List (Option RawMessage)) : List ChatMessage :=
  match cleanedMessages msgs with
  | [] => []
  | c :: cs =>
      match mergeLoop c cs with
      | [] => []
      | h :: t =>
          if h.role = "user" then h :: t
          else { role := "user", content := "Hello" } :: h :: t

/-!
Platform request bodies (services/meta-api.js). Each create function builds
a body object literal in source order, spreads params.extra over it, and
then conditionally assigns the optional numeric/time fields. Only the body
construction is embedded; the HTTP transport is the external collaborator
boundary. Absent parameters are `none`; `extra := []` models an absent
extra object.
-/

/-- Parameters accepted by `createCampaign`. -/
structure CampaignParams where
  name : Option Json
  objective : Option Json
  status : Option Json
  special_ad_categories : Option Json
  daily_budget : Option Json
  lifetime_budget : Option Json
  bid_strategy : Option Json
  extra : List (String × Json)

/-- The body sent by `createCampaign`: name, objective, status defaulting
to PAUSED when absent or falsy, special ad categories defaulting to the
empty array, the spread of extra, then the conditional budget and bid
fields. -/
def createCampaignBody (p : CampaignParams) : List (String × Json) :=
  let b := objSet [] "name" (jsOpt p.name)
  let b := objSet b "objective" (jsOpt p.objective)
  let b := objSet b "status" (jsDefault p.status (Json.str "PAUSED"))
  let b := objSet b "special_ad_categories" (jsDefault p.special_ad_categories (Json.arr []))
  let b := objSpread b p.extra
  let b := condSet b "daily_budget" p.daily_budget
  let b := condSet b "lifetime_budget" p.lifetime_budget
  condSet b "bid_strategy" p.bid_strategy

/-- Parameters accepted by `createAdSet`. -/
structure AdSetParams where
  name : Option Json
  campaign_id : Option Json
  status : Option Json
  optimization_goal : Option Json
  billing_event : Option Json
  targeting : Option Json
  daily_budget : Option Json
  lifetime_budget : Option Json
  bid_amount : Option Json
  start_time : Option Json
  end_time : Option Json
  extra : List (String × Json)

/-- The body sent by `createAdSet`. -/
def createAdSetBody (p : AdSetParams) : List (String × Json) :=
  let b := objSet [] "name" (jsOpt p.name)
  let b := objSet b "campaign_id" (jsOpt p.campaign_id)
  let b := objSet b "status" (jsDefault p.status (Json.str "PAUSED"))
  let b := objSet b "optimization_goal" (jsDefault p.optimization_goal (Json.str "LINK_CLICKS"))
  let b := objSet b "billing_event" (jsDefault p.billing_event (Json.str "IMPRESSIONS"))
  let b := objSet b "targeting" (jsDefault p.targeting (Json.obj []))
  let b := objSpread b p.extra
  let b := condSet b "daily_budget" p.daily_budget
  let b := condSet b "lifetime_budget" p.lifetime_budget
  let b := condSet b "bid_amount" p.bid_amount
  let b := condSet b "start_time" p.start_time
  condSet b "end_time" p.end_time

/-- The creative payload of an ad entry inside a specification. -/
structure AdCreativeSpec where
  name : Option Json
  object_story_spec : Option Json

/-- An ad entry inside a specification, as read by the route. -/
structure AdSpec where
  name : Option Json
  creative : Option AdCreativeSpec

/-- The route guard `adSpec.creative && adSpec.creative.object_story_spec`:
the creative object is present and its object_story_spec is truthy. -/
def hasStorySpec (a : AdSpec) : Bool :=
  match a.creative with
  | some cr =>
      match cr.object_story_spec with
      | some v => jsTruthy v
      | none => false
  | none => false

/-- JavaScript string conversion, used by the template literal that builds
the fallback creative name. Array and object conversions are approximated
(the route only ever reaches this with a string or an absent name). -/
def jsToString : Json → String
  | Json.null => "null"
  | Json.undef => "undefined"
  | Json.bool b => if b then "true" else "false"
  | Json.num m e => toString m ++ "e" ++ toString e
  | Json.str s => s
  | Json.arr _ => ""
  | Json.obj _ => "[object Object]"

/-- The body sent by `createAdCreative` for one ad entry: the creative name
defaults to the ad name followed by a Creative suffix via a template
literal; then the object_story_spec. -/
def creativeBodyOf (a : AdSpec) : List (String × Json) :=
  match a.creative with
  | some cr =>
      let nm : Json := jsDefault cr.name (Json.str (jsToString (jsOpt a.name) ++ " Creative"))
      let b := objSet [] "name" nm
      objSet b "object_story_spec" (jsOpt cr.object_story_spec)
  | none => []

/-- The body sent by `createAd` for one ad entry: name, the identifier of
the ad set created in the current iteration, the fresh creative identifier,
and a hard-coded PAUSED status. -/
def adBodyOf (a : AdSpec) (adSetId : String) (creativeId : String) :
    List (String × Json) :=
  let b := objSet [] "name" (jsOpt a.name)
  let b := objSet b "adset_id" (Json.str adSetId)
  let b := objSet b "creative" (Json.obj [("creative_id", Json.str creativeId)])
  objSet b "status" (Json.str "PAUSED")

/-!
The create-from-spec route handler (routes/campaigns.js, lines 180-219).
The platform client is a deterministic mock answering the n-th request; a
`Except.error` result models `metaApi` rejecting (throwing). The handler
catches any throw and responds with status 500 and a body carrying only the
error message and the constant step label create-from-spec; the partially
filled results object is discarded on that path. The orchestration state
additionally records the trace of issued calls so that theorems can speak
about which requests were sent.
-/

/-- A platform-assigned object: the only field the route ever reads back is
the identifier. -/
structure PlatformObject where
  id : String
deriving DecidableEq

/-- The deterministic platform-client mock: the result of the n-th create
call. -/
def ClientFun : Type := Nat → Except String PlatformObject

/-- One issued platform request. -/
inductive ApiCall where
  | campaignCreate : List (String × Json) → ApiCall
  | adSetCreate : List (String × Json) → ApiCall
  | adCreativeCreate : List (String × Json) → ApiCall
  | adCreate : List (String × Json) → ApiCall

/-- Orchestration bookkeeping: how many calls were issued and which. Each
issued call appends its request to the trace, bumps the index, and reads
the mock at the old index. -/
structure OrchState where
  idx : Nat
  trace : List ApiCall

/-- The in-memory results object of the handler. -/
structure SpecResults where
  campaign : Option PlatformObject
  ad_sets : List PlatformObject
  ads : List PlatformObject
deriving DecidableEq

/-- The HTTP response of the handler: success with the results object, or
the catch-all 500 with the error message and the constant step label. -/
inductive SpecResponse where
  | ok : SpecResults → SpecResponse
  | err : String → String → SpecResponse
deriving DecidableEq

/-- The full specification posted to create-from-spec. `none` lists model
absent properties (defaulted with an empty-array fallback in the route). -/
structure CampaignSpecInput where
  campaign : CampaignParams
  ad_sets : Option (List AdSetParams)
  ads : Option (List AdSpec)

/-- The inner loop of the handler: for each ad entry, when the creative
carries an object_story_spec, create the creative first and then the ad
bound to the given ad-set identifier; otherwise skip the entry. Any client
error aborts the loop immediately. -/
def runAds (client : ClientFun) (adSetId : String) :
    List AdSpec → OrchState → List PlatformObject →
    OrchState × Except String (List PlatformObject)
  | [], st, acc => (st, Except.ok acc)
  | a :: rest, st, acc =>
      if hasStorySpec a then
        match client st.idx with
        | Except.error e =>
            ({ idx := st.idx + 1,
               trace := st.trace ++ [ApiCall.adCreativeCreate (creativeBodyOf a)] },
             Except.error e)
        | Except.ok creative =>
            match client (st.idx + 1) with
            | Except.error e =>
                ({ idx := st.idx + 2,
                   trace := st.trace ++ [ApiCall.adCreativeCreate (creativeBodyOf a),
                     ApiCall.adCreate (adBodyOf a adSetId creative.id)] },
                 Except.error e)
            | Except.ok ad =>
                runAds client adSetId rest
                  { idx := st.idx + 2,
                    trace := st.trace ++ [ApiCall.adCreativeCreate (creativeBodyOf a),
                      ApiCall.adCreate (adBodyOf a adSetId creative.id)] }
                  (acc ++ [ad])
      else runAds client adSetId rest st acc

/-- The route assignment `adSetSpec.campaign_id = campaign.id` before the
ad-set create call. -/
def bindCampaign (s : AdSetParams) (cid : String) : AdSetParams :=
  { s with campaign_id := some (Json.str cid) }

/-- The outer loop of the handler: create each ad set bound to the created
campaign, then run the full ad list against it. Any client error aborts
immediately. -/
def runAdSets (client : ClientFun) (cid : String) (ads : List AdSpec) :
    List AdSetParams → OrchState → List PlatformObject → List PlatformObject →
    OrchState × Except String (List PlatformObject × List PlatformObject)
  | [], st, asAcc, adAcc => (st, Except.ok (asAcc, adAcc))
  | s :: rest, st, asAcc, adAcc =>
      match client st.idx with
      | Except.error e =>
          ({ idx := st.idx + 1,
             trace := st.trace ++ [ApiCall.adSetCreate (createAdSetBody (bindCampaign s cid))] },
           Except.error e)
      | Except.ok adSetObj =>
          match runAds client adSetObj.id ads
              { idx := st.idx + 1,
                trace := st.trace ++ [ApiCall.adSetCreate (createAdSetBody (bindCampaign s cid))] }
              adAcc with
          | (st2, Except.error e) => (st2, Except.error e)
          | (st2, Except.ok adAcc2) =>
              runAdSets client cid ads rest st2 (asAcc ++ [adSetObj]) adAcc2

/-- The create-from-spec handler: create the campaign, then the ad sets,
then the ads; on any throw respond with the error message and the constant
step label, discarding the partial results object. -/
def createFromSpec (client : ClientFun) (spec : CampaignSpecInput) :
    OrchState × SpecResponse :=
  match client 0 with
  | Except.error e =>
      ({ idx := 1, trace := [ApiCall.campaignCreate (createCampaignBody spec.campaign)] },
       SpecResponse.err e "create-from-spec")
  | Except.ok campaign =>
      match runAdSets client campaign.id (spec.ads.getD []) (spec.ad_sets.getD [])
          { idx := 1, trace := [ApiCall.campaignCreate (createCampaignBody spec.campaign)] }
          [] [] with
      | (st2, Except.error e) => (st2, SpecResponse.err e "create-from-spec")
      | (st2, Except.ok (adSets, ads)) =>
          (st2, SpecResponse.ok { campaign := some campaign, ad_sets := adSets, ads := ads })

/-- The all-success mock: the n-th call returns the n-th object of `f`. -/
def okClient (f : Nat → PlatformObject) : ClientFun :=
  fun n => Except.ok (f n)

/-!
Expected schedules for the all-success runs. These definitions follow the
specification text for the orchestrator (campaign, then per ad set the ad
set create followed by the full ad list, each ad as creative-then-ad bound
to the identifier returned for the enclosing ad set); the refinement
theorems below equate the embedded handler with them. The index argument is
the number of platform calls issued before the current point, so `f i` is
the object the mock returns for the call issued at that point.
-/

/-- The calls issued for one ad list under one ad set: for each ad entry a
creative create followed by an ad create bound to the given ad-set
identifier and to the identifier answered for the creative call. -/
def expectedAdsTrace (f : Nat → PlatformObject) (adSetId : String) :
    Nat → List AdSpec → List ApiCall
  | _, [] => []
  | i, a :: rest =>
      ApiCall.adCreativeCreate (creativeBodyOf a) ::
      ApiCall.adCreate (adBodyOf a adSetId (f i).id) ::
      expectedAdsTrace f adSetId (i + 2) rest

/-- The ad objects collected for one ad list (the answer to every second
call). -/
def expectedAdsObjs (f : Nat → PlatformObject) : Nat → List AdSpec → List PlatformObject
  | _, [] => []
  | i, _ :: rest => f (i + 1) :: expectedAdsObjs f (i + 2) rest

/-- The calls issued for the ad-set loop: each ad set bound to the campaign
identifier, followed by the full ad list run against the object answered
for that ad set. -/
def expectedAdSetsTrace (f : Nat → PlatformObject) (cid : String) (ads : List AdSpec) :
    Nat → List AdSetParams → List ApiCall
  | _, [] => []
  | i, s :: rest =>
      ApiCall.adSetCreate (createAdSetBody (bindCampaign s cid)) ::
      (expectedAdsTrace f (f i).id (i + 1) ads ++
       expectedAdSetsTrace f cid ads (i + 1 + 2 * ads.length) rest)

/-- The ad-set objects collected by the ad-set loop. -/
def expectedAdSetObjs (f : Nat → PlatformObject) (ads : List AdSpec) :
    Nat → List AdSetParams → List PlatformObject
  | _, [] => []
  | i, _ :: rest => f i :: expectedAdSetObjs f ads (i + 1 + 2 * ads.length) rest

/-- All ad objects collected across the ad-set loop (the full ad list once
per ad set). -/
def expectedAllAdsObjs (f : Nat → PlatformObject) (ads : List AdSpec) :
    Nat → List AdSetParams → List PlatformObject
  | _, [] => []
  | i, _ :: rest =>
      expectedAdsObjs f (i + 1) ads ++ expectedAllAdsObjs f ads (i + 1 + 2 * ads.length) rest

/-!
Concrete inputs used by the counterexamples and witnesses below.
-/

/-- A minimal ad-set specification carrying only a name. -/
def plainAdSet (nm : String) : AdSetParams :=
  { name := some (Json.str nm), campaign_id := none, status := none,
    optimization_goal := none, billing_event := none, targeting := none,
    daily_budget := none, lifetime_budget := none, bid_amount := none,
    start_time := none, end_time := none, extra := [] }

/-- A minimal draft campaign part (no status given). -/
def plainCampaign : CampaignParams :=
  { name := some (Json.str "Summer Sale"), objective := some (Json.str "OUTCOME_SALES"),
    status := none, special_ad_categories := none, daily_budget := none,
    lifetime_budget := none, bid_strategy := none, extra := [] }

/-- A campaign part explicitly requesting ACTIVE status. -/
def activeCampaign : CampaignParams :=
  { name := some (Json.str "Summer Sale"), objective := some (Json.str "OUTCOME_SALES"),
    status := some (Json.str "ACTIVE"), special_ad_categories := none, daily_budget := none,
    lifetime_budget := none, bid_strategy := none, extra := [] }

/-- Mock for the partial-failure scenario: campaign and first ad set
succeed, the third call (the second ad set) fails. -/
def c1Client : ClientFun := fun n =>
  match n with
  | 0 => Except.ok { id := "camp1" }
  | 1 => Except.ok { id := "adset1" }
  | _ => Except.error "boom"

/-- Specification with one campaign, two ad sets and no ads. -/
def c1Spec : CampaignSpecInput :=
  { campaign := plainCampaign,
    ad_sets := some [plainAdSet "A1", plainAdSet "A2"],
    ads := some [] }

/-- All-success mock answering a fixed identifier. -/
def c2Client : ClientFun := fun _ => Except.ok { id := "created1" }

/-- Specification whose campaign requests ACTIVE status. -/
def c2Spec : CampaignSpecInput :=
  { campaign := activeCampaign, ad_sets := none, ads := none }

/-- An ad entry whose creative carries an object_story_spec. -/
def storyAd (nm : String) : AdSpec :=
  { name := some (Json.str nm),
    creative := some { name := some (Json.str (nm ++ " Creative")),
                       object_story_spec := some (Json.obj [("page_id", Json.str "P1")]) } }

/-- An ad entry without any creative. -/
def bareAd (nm : String) : AdSpec :=
  { name := some (Json.str nm), creative := none }

/-- Identifier-echoing mock for the all-success runs. -/
def echoClient : Nat → PlatformObject := fun n => { id := Nat.repr n }

/-- Model answer with a fenced block and unrelated loose campaign JSON. -/
def precedenceInput : String :=
  "Here:\n```json\n\x7b\"campaign\": \x7b\"name\": \"X\"\x7d\x7d\n```\nAlso \x7b\"campaign\": \"Y\"\x7d"

/-- A fenced json block whose content has no campaign key. -/
def noCampaignFenced : String := "```json\n\x7b\"foo\": \"bar\"\x7d\n```"

/-- The same JSON object without the fence. -/
def plainNoCampaign : String := "\x7b\"foo\": \"bar\"\x7d"

/-!
Helper lemmas. These are shared infrastructure; the claim theorems follow
after them.
-/

theorem objGet_objSet_self (o : List (String × Json)) (k : String) (v : Json) :
    objGet (objSet o k v) k = some v := by
  induction o with
  | nil => simp [objSet, objGet]
  | cons p rest ih =>
      obtain ⟨k2, v2⟩ := p
      by_cases h : k2 = k
      · subst h; simp [objSet, objGet]
      · simp [objSet, objGet, h] at ih ⊢
        exact ih

theorem objGet_objSet_other (o : List (String × Json)) (k k2 : String) (v : Json)
    (h : k2 ≠ k) : objGet (objSet o k v) k2 = objGet o k2 := by
  have h2 : ¬ k = k2 := fun e => h e.symm
  induction o with
  | nil => simp [objSet, objGet, h2]
  | cons p rest ih =>
      obtain ⟨k3, v3⟩ := p
      by_cases h3 : k3 = k
      · subst h3
        simp [objSet, objGet, h2]
      · by_cases h4 : k3 = k2
        · subst h4; simp [objSet, objGet, h3]
        · simp [objSet, objGet, h3, h4] at ih ⊢
          exact ih

theorem objGet_objSpread_notin (extra : List (String × Json)) :
    ∀ (o : List (String × Json)) (k : String), (∀ kv ∈ extra, kv.1 ≠ k) →
      objGet (objSpread o extra) k = objGet o k := by
  induction extra with
  | nil => intro o k _; simp [objSpread]
  | cons kv rest ih =>
      intro o k h
      have h1 : kv.1 ≠ k := h kv (by simp)
      have h2 : ∀ kv2 ∈ rest, kv2.1 ≠ k := fun kv2 hm => h kv2 (by simp [hm])
      simp only [objSpread, List.foldl_cons]
      have := ih (objSet o kv.1 kv.2) k h2
      simp only [objSpread] at this
      rw [this, objGet_objSet_other _ _ _ _ (fun e => h1 e.symm)]

theorem objGet_condSet_other (o : List (String × Json)) (k k2 : String) (v : Option Json)
    (h : k2 ≠ k) : objGet (condSet o k v) k2 = objGet o k2 := by
  cases v with
  | none => rfl
  | some j =>
      by_cases ht : jsTruthy j
      · simp [condSet, ht, objGet_objSet_other _ _ _ _ h]
      · simp [condSet, ht]

/-- The status field of the body `createCampaign` sends equals the input
status defaulted to PAUSED when absent or falsy, provided the spread extra
object does not itself carry a status key. -/
theorem objGet_createCampaignBody_status (p : CampaignParams)
    (hx : ∀ kv ∈ p.extra, kv.1 ≠ "status") :
    objGet (createCampaignBody p) "status" = some (jsDefault p.status (Json.str "PAUSED")) := by
  unfold createCampaignBody
  rw [objGet_condSet_other _ _ _ _ (by decide),
      objGet_condSet_other _ _ _ _ (by decide),
      objGet_condSet_other _ _ _ _ (by decide),
      objGet_objSpread_notin _ _ _ hx,
      objGet_objSet_other _ _ _ _ (by decide),
      objGet_objSet_self]

theorem mergeLoop_head (xs : List ChatMessage) :
    ∀ prev : ChatMessage, ∃ c t, mergeLoop prev xs = { role := prev.role, content := c } :: t := by
  induction xs with
  | nil => intro prev; exact ⟨prev.content, [], by simp [mergeLoop]⟩
  | cons x xs ih =>
      intro prev
      by_cases h : x.role = prev.role
      · obtain ⟨c, t, heq⟩ := ih { role := prev.role, content := prev.content ++ "\n\n" ++ x.content }
        exact ⟨c, t, by simp [mergeLoop, h, heq]⟩
      · exact ⟨prev.content, mergeLoop x xs, by simp [mergeLoop, h]⟩

theorem mergeLoop_chain (xs : List ChatMessage) :
    ∀ prev : ChatMessage, List.Chain' (fun a b => a.role ≠ b.role) (mergeLoop prev xs) := by
  induction xs with
  | nil => intro prev; simp [mergeLoop]
  | cons x xs ih =>
      intro prev
      by_cases h : x.role = prev.role
      · simpa [mergeLoop, h] using ih { role := prev.role, content := prev.content ++ "\n\n" ++ x.content }
      · obtain ⟨c, t, heq⟩ := mergeLoop_head xs x
        have hch := ih x
        rw [heq] at hch
        simp only [mergeLoop, h, if_false]
        rw [heq]
        exact List.chain'_cons.mpr ⟨fun e => h (by simpa using e.symm), hch⟩

theorem runAds_cons_skip (client : ClientFun) (aid : String) (a : AdSpec)
    (rest : List AdSpec) (st : OrchState) (acc : List PlatformObject)
    (h : hasStorySpec a = false) :
    runAds client aid (a :: rest) st acc = runAds client aid rest st acc := by
  simp [runAds, h]

theorem runAds_cons_err1 (client : ClientFun) (aid : String) (a : AdSpec)
    (rest : List AdSpec) (st : OrchState) (acc : List PlatformObject) (e : String)
    (h : hasStorySpec a = true) (hc : client st.idx = Except.error e) :
    runAds client aid (a :: rest) st acc =
      ({ idx := st.idx + 1,
         trace := st.trace ++ [ApiCall.adCreativeCreate (creativeBodyOf a)] },
       Except.error e) := by
  simp [runAds, h, hc]

theorem runAds_cons_err2 (client : ClientFun) (aid : String) (a : AdSpec)
    (rest : List AdSpec) (st : OrchState) (acc : List PlatformObject)
    (creative : PlatformObject) (e : String)
    (h : hasStorySpec a = true) (hc : client st.idx = Except.ok creative)
    (hc2 : client (st.idx + 1) = Except.error e) :
    runAds client aid (a :: rest) st acc =
      ({ idx := st.idx + 2,
         trace := st.trace ++ [ApiCall.adCreativeCreate (creativeBodyOf a),
           ApiCall.adCreate (adBodyOf a aid creative.id)] },
       Except.error e) := by
  simp [runAds, h, hc, hc2]

theorem runAds_cons_ok (client : ClientFun) (aid : String) (a : AdSpec)
    (rest : List AdSpec) (st : OrchState) (acc : List PlatformObject)
    (creative ad : PlatformObject)
    (h : hasStorySpec a = true) (hc : client st.idx = Except.ok creative)
    (hc2 : client (st.idx + 1) = Except.ok ad) :
    runAds client aid (a :: rest) st acc =
      runAds client aid rest
        { idx := st.idx + 2,
          trace := st.trace ++ [ApiCall.adCreativeCreate (creativeBodyOf a),
            ApiCall.adCreate (adBodyOf a aid creative.id)] }
        (acc ++ [ad]) := by
  simp [runAds, h, hc, hc2]

theorem runAdSets_cons_err (client : ClientFun) (cid : String) (ads : List AdSpec)
    (s : AdSetParams) (rest : List AdSetParams) (st : OrchState)
    (asAcc adAcc : List PlatformObject) (e : String)
    (hc : client st.idx = Except.error e) :
    runAdSets client cid ads (s :: rest) st asAcc adAcc =
      ({ idx := st.idx + 1,
         trace := st.trace ++ [ApiCall.adSetCreate (createAdSetBody (bindCampaign s cid))] },
       Except.error e) := by
  simp [runAdSets, hc]

theorem runAdSets_cons_ok (client : ClientFun) (cid : String) (ads : List AdSpec)
    (s : AdSetParams) (rest : List AdSetParams) (st : OrchState)
    (asAcc adAcc : List PlatformObject) (adSetObj : PlatformObject)
    (hc : client st.idx = Except.ok adSetObj) :
    runAdSets client cid ads (s :: rest) st asAcc adAcc =
      (match runAds client adSetObj.id ads
          { idx := st.idx + 1,
            trace := st.trace ++ [ApiCall.adSetCreate (createAdSetBody (bindCampaign s cid))] }
          adAcc with
       | (st2, Except.error e) => (st2, Except.error e)
       | (st2, Except.ok adAcc2) =>
           runAdSets client cid ads rest st2 (asAcc ++ [adSetObj]) adAcc2) := by
  simp [runAdSets, hc]

theorem createFromSpec_err (client : ClientFun) (spec : CampaignSpecInput) (e : String)
    (hc : client 0 = Except.error e) :
    createFromSpec client spec =
      ({ idx := 1, trace := [ApiCall.campaignCreate (createCampaignBody spec.campaign)] },
       SpecResponse.err e "create-from-spec") := by
  simp [createFromSpec, hc]

theorem createFromSpec_ok (client : ClientFun) (spec : CampaignSpecInput)
    (campaign : PlatformObject) (hc : client 0 = Except.ok campaign) :
    createFromSpec client spec =
      (match runAdSets client campaign.id (spec.ads.getD []) (spec.ad_sets.getD [])
          { idx := 1, trace := [ApiCall.campaignCreate (createCampaignBody spec.campaign)] }
          [] [] with
       | (st2, Except.error e) => (st2, SpecResponse.err e "create-from-spec")
       | (st2, Except.ok (adSets, ads)) =>
           (st2, SpecResponse.ok { campaign := some campaign, ad_sets := adSets, ads := ads })) := by
  simp [createFromSpec, hc]

theorem runAds_trace_extend (client : ClientFun) (aid : String) :
    ∀ (ads : List AdSpec) (st : OrchState) (acc : List PlatformObject),
      ∃ tr, ((runAds client aid ads st acc).1).trace = st.trace ++ tr := by
  intro ads
  induction ads with
  | nil => intro st acc; exact ⟨[], by simp [runAds]⟩
  | cons a rest ih =>
      intro st acc
      cases h : hasStorySpec a with
      | false => rw [runAds_cons_skip client aid a rest st acc h]; exact ih st acc
      | true =>
          cases hc : client st.idx with
          | error e =>
              rw [runAds_cons_err1 client aid a rest st acc e h hc]
              exact ⟨[ApiCall.adCreativeCreate (creativeBodyOf a)], rfl⟩
          | ok creative =>
              cases hc2 : client (st.idx + 1) with
              | error e =>
                  rw [runAds_cons_err2 client aid a rest st acc creative e h hc hc2]
                  exact ⟨[ApiCall.adCreativeCreate (creativeBodyOf a),
                    ApiCall.adCreate (adBodyOf a aid creative.id)], rfl⟩
              | ok ad =>
                  rw [runAds_cons_ok client aid a rest st acc creative ad h hc hc2]
                  obtain ⟨tr, htr⟩ := ih
                    { idx := st.idx + 2,
                      trace := st.trace ++ [ApiCall.adCreativeCreate (creativeBodyOf a),
                        ApiCall.adCreate (adBodyOf a aid creative.id)] }
                    (acc ++ [ad])
                  exact ⟨[ApiCall.adCreativeCreate (creativeBodyOf a),
                    ApiCall.adCreate (adBodyOf a aid creative.id)] ++ tr,
                    htr.trans (List.append_assoc _ _ _)⟩

theorem runAdSets_trace_extend (client : ClientFun) (cid : String) (ads : List AdSpec) :
    ∀ (adSets : List AdSetParams) (st : OrchState)
      (asAcc adAcc : List PlatformObject),
      ∃ tr, ((runAdSets client cid ads adSets st asAcc adAcc).1).trace = st.trace ++ tr := by
  intro adSets
  induction adSets with
  | nil => intro st asAcc adAcc; exact ⟨[], by simp [runAdSets]⟩
  | cons s rest ih =>
      intro st asAcc adAcc
      cases hc : client st.idx with
      | error e =>
          rw [runAdSets_cons_err client cid ads s rest st asAcc adAcc e hc]
          exact ⟨[ApiCall.adSetCreate (createAdSetBody (bindCampaign s cid))], rfl⟩
      | ok adSetObj =>
          rw [runAdSets_cons_ok client cid ads s rest st asAcc adAcc adSetObj hc]
          obtain ⟨tr1, htr1⟩ := runAds_trace_extend client adSetObj.id ads
            { idx := st.idx + 1,
              trace := st.trace ++ [ApiCall.adSetCreate (createAdSetBody (bindCampaign s cid))] }
            adAcc
          rcases hr : runAds client adSetObj.id ads
            { idx := st.idx + 1,
              trace := st.trace ++ [ApiCall.adSetCreate (createAdSetBody (bindCampaign s cid))] }
            adAcc with ⟨st2, r⟩
          rw [hr] at htr1
          have htr1b : st2.trace =
              (st.trace ++ [ApiCall.adSetCreate (createAdSetBody (bindCampaign s cid))]) ++ tr1 := htr1
          cases r with
          | error e =>
              exact ⟨[ApiCall.adSetCreate (createAdSetBody (bindCampaign s cid))] ++ tr1,
                htr1b.trans (List.append_assoc _ _ _)⟩
          | ok adAcc2 =>
              obtain ⟨tr2, htr2⟩ := ih st2 (asAcc ++ [adSetObj]) adAcc2
              refine ⟨[ApiCall.adSetCreate (createAdSetBody (bindCampaign s cid))] ++ tr1 ++ tr2, ?_⟩
              show (runAdSets client cid ads rest st2 (asAcc ++ [adSetObj]) adAcc2).1.trace = _
              rw [htr2, htr1b]
              simp

theorem createFromSpec_trace_head (client : ClientFun) (spec : CampaignSpecInput) :
    ∃ rest, ((createFromSpec client spec).1).trace =
      ApiCall.campaignCreate (createCampaignBody spec.campaign) :: rest := by
  cases hc : client 0 with
  | error e =>
      rw [createFromSpec_err client spec e hc]
      exact ⟨[], rfl⟩
  | ok campaign =>
      rw [createFromSpec_ok client spec campaign hc]
      obtain ⟨tr, htr⟩ := runAdSets_trace_extend client campaign.id (spec.ads.getD [])
        (spec.ad_sets.getD [])
        { idx := 1, trace := [ApiCall.campaignCreate (createCampaignBody spec.campaign)] } [] []
      rcases hr : runAdSets client campaign.id (spec.ads.getD []) (spec.ad_sets.getD [])
        { idx := 1, trace := [ApiCall.campaignCreate (createCampaignBody spec.campaign)] } [] []
        with ⟨st2, r⟩
      rw [hr] at htr
      have htrb : st2.trace =
          [ApiCall.campaignCreate (createCampaignBody spec.campaign)] ++ tr := htr
      cases r with
      | error e => exact ⟨tr, htrb⟩
      | ok pair =>
          obtain ⟨adSets2, ads2⟩ := pair
          exact ⟨tr, htrb⟩

theorem runAds_okClient (f : Nat → PlatformObject) (aid : String) :
    ∀ (ads : List AdSpec) (i : Nat) (tr : List ApiCall) (acc : List PlatformObject),
      (∀ a ∈ ads, hasStorySpec a = true) →
      runAds (okClient f) aid ads { idx := i, trace := tr } acc =
        ({ idx := i + 2 * ads.length, trace := tr ++ expectedAdsTrace f aid i ads },
         Except.ok (acc ++ expectedAdsObjs f i ads)) := by
  intro ads
  induction ads with
  | nil =>
      intro i tr acc _
      simp [runAds, expectedAdsTrace, expectedAdsObjs]
  | cons a rest ih =>
      intro i tr acc hall
      have ha : hasStorySpec a = true := hall a (by simp)
      have hrest : ∀ a2 ∈ rest, hasStorySpec a2 = true := fun a2 h2 => hall a2 (by simp [h2])
      rw [runAds_cons_ok (okClient f) aid a rest { idx := i, trace := tr } acc (f i) (f (i + 1))
        ha rfl rfl]
      rw [ih (i + 2)
        (tr ++ [ApiCall.adCreativeCreate (creativeBodyOf a),
          ApiCall.adCreate (adBodyOf a aid (f i).id)])
        (acc ++ [f (i + 1)]) hrest]
      refine congrArg₂ Prod.mk ?_ ?_
      · refine congrArg₂ OrchState.mk ?_ ?_
        · simp [List.length_cons]
          ring
        · simp [expectedAdsTrace]
      · simp [expectedAdsObjs]

theorem runAdSets_okClient (f : Nat → PlatformObject) (cid : String) (ads : List AdSpec)
    (hall : ∀ a ∈ ads, hasStorySpec a = true) :
    ∀ (adSets : List AdSetParams) (i : Nat) (tr : List ApiCall)
      (asAcc adAcc : List PlatformObject),
      runAdSets (okClient f) cid ads adSets { idx := i, trace := tr } asAcc adAcc =
        ({ idx := i + adSets.length * (1 + 2 * ads.length),
           trace := tr ++ expectedAdSetsTrace f cid ads i adSets },
         Except.ok (asAcc ++ expectedAdSetObjs f ads i adSets,
           adAcc ++ expectedAllAdsObjs f ads i adSets)) := by
  intro adSets
  induction adSets with
  | nil =>
      intro i tr asAcc adAcc
      simp [runAdSets, expectedAdSetsTrace, expectedAdSetObjs, expectedAllAdsObjs]
  | cons s rest ih =>
      intro i tr asAcc adAcc
      rw [runAdSets_cons_ok (okClient f) cid ads s rest { idx := i, trace := tr }
        asAcc adAcc (f i) rfl]
      rw [runAds_okClient f (f i).id ads (i + 1)
        (tr ++ [ApiCall.adSetCreate (createAdSetBody (bindCampaign s cid))]) adAcc hall]
      show runAdSets (okClient f) cid ads rest
        { idx := i + 1 + 2 * ads.length,
          trace := tr ++ [ApiCall.adSetCreate (createAdSetBody (bindCampaign s cid))] ++
            expectedAdsTrace f (f i).id (i + 1) ads }
        (asAcc ++ [f i]) (adAcc ++ expectedAdsObjs f (i + 1) ads) = _
      rw [ih (i + 1 + 2 * ads.length)
        ((tr ++ [ApiCall.adSetCreate (createAdSetBody (bindCampaign s cid))]) ++
          expectedAdsTrace f (f i).id (i + 1) ads)
        (asAcc ++ [f i]) (adAcc ++ expectedAdsObjs f (i + 1) ads)]
      refine congrArg₂ Prod.mk ?_ ?_
      · refine congrArg₂ OrchState.mk ?_ ?_
        · simp [List.length_cons]
          ring
        · simp [expectedAdSetsTrace]
      · refine congrArg Except.ok (congrArg₂ Prod.mk ?_ ?_)
        · simp [expectedAdSetObjs]
        · simp [expectedAllAdsObjs]

theorem expectedAdsObjs_length (f : Nat → PlatformObject) :
    ∀ (ads : List AdSpec) (i : Nat), (expectedAdsObjs f i ads).length = ads.length := by
  intro ads
  induction ads with
  | nil => intro i; simp [expectedAdsObjs]
  | cons a rest ih => intro i; simp [expectedAdsObjs, ih]

theorem expectedAdSetObjs_length (f : Nat → PlatformObject) (ads : List AdSpec) :
    ∀ (adSets : List AdSetParams) (i : Nat),
      (expectedAdSetObjs f ads i adSets).length = adSets.length := by
  intro adSets
  induction adSets with
  | nil => intro i; simp [expectedAdSetObjs]
  | cons s rest ih => intro i; simp [expectedAdSetObjs, ih]

theorem expectedAllAdsObjs_length (f : Nat → PlatformObject) (ads : List AdSpec) :
    ∀ (adSets : List AdSetParams) (i : Nat),
      (expectedAllAdsObjs f ads i adSets).length = adSets.length * ads.length := by
  intro adSets
  induction adSets with
  | nil => intro i; simp [expectedAllAdsObjs]
  | cons s rest ih =>
      intro i
      simp [expectedAllAdsObjs, expectedAdsObjs_length, ih, List.length_cons]
      ring

theorem runAds_filter (client : ClientFun) (aid : String) :
    ∀ (ads : List AdSpec) (st : OrchState) (acc : List PlatformObject),
      runAds client aid ads st acc =
        runAds client aid (ads.filter (fun a => hasStorySpec a)) st acc := by
  intro ads
  induction ads with
  | nil => intro st acc; simp
  | cons a rest ih =>
      intro st acc
      cases h : hasStorySpec a with
      | false =>
          rw [runAds_cons_skip client aid a rest st acc h]
          simp only [List.filter_cons, h]
          exact ih st acc
      | true =>
          simp only [List.filter_cons, h, if_true]
          cases hc : client st.idx with
          | error e =>
              rw [runAds_cons_err1 client aid a rest st acc e h hc,
                runAds_cons_err1 client aid a (rest.filter (fun a2 => hasStorySpec a2)) st acc e h hc]
          | ok creative =>
              cases hc2 : client (st.idx + 1) with
              | error e =>
                  rw [runAds_cons_err2 client aid a rest st acc creative e h hc hc2,
                    runAds_cons_err2 client aid a (rest.filter (fun a2 => hasStorySpec a2)) st acc
                      creative e h hc hc2]
              | ok ad =>
                  rw [runAds_cons_ok client aid a rest st acc creative ad h hc hc2,
                    runAds_cons_ok client aid a (rest.filter (fun a2 => hasStorySpec a2)) st acc
                      creative ad h hc hc2]
                  exact ih _ _

theorem runAdSets_filter (client : ClientFun) (cid : String) (ads : List AdSpec) :
    ∀ (adSets : List AdSetParams) (st : OrchState) (asAcc adAcc : List PlatformObject),
      runAdSets client cid ads adSets st asAcc adAcc =
        runAdSets client cid (ads.filter (fun a => hasStorySpec a)) adSets st asAcc adAcc := by
  intro adSets
  induction adSets with
  | nil => intro st asAcc adAcc; simp [runAdSets]
  | cons s rest ih =>
      intro st asAcc adAcc
      cases hc : client st.idx with
      | error e =>
          rw [runAdSets_cons_err client cid ads s rest st asAcc adAcc e hc,
            runAdSets_cons_err client cid (ads.filter (fun a => hasStorySpec a)) s rest st
              asAcc adAcc e hc]
      | ok adSetObj =>
          rw [runAdSets_cons_ok client cid ads s rest st asAcc adAcc adSetObj hc,
            runAdSets_cons_ok client cid (ads.filter (fun a => hasStorySpec a)) s rest st
              asAcc adAcc adSetObj hc]
          rw [← runAds_filter client adSetObj.id ads]
          rcases hr : runAds client adSetObj.id ads
            { idx := st.idx + 1,
              trace := st.trace ++ [ApiCall.adSetCreate (createAdSetBody (bindCampaign s cid))] }
            adAcc with ⟨st2, r⟩
          cases r with
          | error e => rfl
          | ok adAcc2 => exact ih st2 (asAcc ++ [adSetObj]) adAcc2

theorem createFromSpec_filter (client : ClientFun) (camp : CampaignParams)
    (adSets : List AdSetParams) (ads : List AdSpec) :
    createFromSpec client { campaign := camp, ad_sets := some adSets, ads := some ads } =
      createFromSpec client
        { campaign := camp, ad_sets := some adSets,
          ads := some (ads.filter (fun a => hasStorySpec a)) } := by
  cases hc : client 0 with
  | error e =>
      rw [createFromSpec_err client _ e hc, createFromSpec_err client _ e hc]
  | ok campaign =>
      rw [createFromSpec_ok client _ campaign hc, createFromSpec_ok client _ campaign hc]
      simp only [Option.getD_some]
      rw [← runAdSets_filter client campaign.id ads adSets]

/-!
Claim theorems.
-/

/-- C5: for every input sequence of role/content entries, the output of
`sanitizeMessages` is either empty, or its first entry has the user role
and no two consecutive entries of the output share a role (strict
alternation). -/
theorem sanitizeMessages_alternation (msgs : List (Option RawMessage)) :
    sanitizeMessages msgs = [] ∨
    ∃ h t, sanitizeMessages msgs = h :: t ∧ h.role = "user" ∧
      List.Chain' (fun a b => a.role ≠ b.role) (h :: t) := by
  cases hcl : cleanedMessages msgs with
  | nil => left; simp [sanitizeMessages, hcl]
  | cons c cs =>
      right
      obtain ⟨cc, t, heq⟩ := mergeLoop_head cs c
      have hch := mergeLoop_chain cs c
      rw [heq] at hch
      by_cases hu : c.role = "user"
      · refine ⟨{ role := c.role, content := cc }, t, ?_, hu, hch⟩
        simp [sanitizeMessages, hcl, heq, hu]
      · refine ⟨{ role := "user", content := "Hello" },
          { role := c.role, content := cc } :: t, ?_, rfl, ?_⟩
        · simp [sanitizeMessages, hcl, heq, hu]
        · exact List.chain'_cons.mpr ⟨fun e => hu e.symm, hch⟩

/-- C8 counterexample: an input whose only entry has whitespace-only
content normalizes to the empty sequence; no synthetic user turn is
prepended, contradicting the claim that the normalizer never returns an
empty conversation. -/
theorem sanitizeMessages_empty_counterexample :
    sanitizeMessages [some { role := some "user", content := some "   " }] = [] := rfl

/-- C8 amended: when the filtered sequence is empty the normalizer returns
the empty sequence (it does not prepend anything); only when the first
surviving merged entry is not a user turn does it prepend the synthetic
Hello user turn, making the output user-first. -/
theorem sanitizeMessages_prepend_amended (msgs : List (Option RawMessage)) :
    (cleanedMessages msgs = [] → sanitizeMessages msgs = []) ∧
    ∀ h t, mergedMessages msgs = h :: t →
      (h.role = "user" → sanitizeMessages msgs = h :: t) ∧
      (h.role ≠ "user" →
        sanitizeMessages msgs = { role := "user", content := "Hello" } :: h :: t) := by
  constructor
  · intro h0; simp [sanitizeMessages, h0]
  · intro h t hmg
    cases hcl : cleanedMessages msgs with
    | nil => simp [mergedMessages, hcl] at hmg
    | cons c cs =>
        have hmg2 : mergeLoop c cs = h :: t := by simpa [mergedMessages, hcl] using hmg
        constructor
        · intro hu; simp [sanitizeMessages, hcl, hmg2, hu]
        · intro hnu; simp [sanitizeMessages, hcl, hmg2, hnu]

/-- C8 amended witness: an assistant-first conversation gets the synthetic
Hello user turn prepended. -/
theorem sanitizeMessages_prepend_amended_witness :
    sanitizeMessages [some { role := some "assistant", content := some "hi" }] =
      [{ role := "user", content := "Hello" }, { role := "assistant", content := "hi" }] := by
  have h := (sanitizeMessages_prepend_amended
    [some { role := some "assistant", content := some "hi" }]).2
    { role := "assistant", content := "hi" } [] rfl
  exact h.2 (by decide)

/-- C3 counterexample: a params object with status ACTIVE produces a
campaign-create body whose status field is ACTIVE, not PAUSED, so the
create step does not force the paused/draft value for every input. -/
theorem createCampaignBody_active_counterexample :
    objGet (createCampaignBody activeCampaign) "status" = some (Json.str "ACTIVE") ∧
    Json.str "ACTIVE" ≠ Json.str "PAUSED" := by
  refine ⟨rfl, ?_⟩
  intro h
  injection h with h2
  exact absurd h2 (by decide)

/-- C3 amended: the campaign-create body sends status equal to the input
status whenever that is present and truthy (ACTIVE included), and PAUSED
only as a default for an absent or falsy input status (provided the spread
extra object carries no status key of its own). -/
theorem createCampaignBody_status_not_forced (p : CampaignParams)
    (hx : ∀ kv ∈ p.extra, kv.1 ≠ "status") :
    objGet (createCampaignBody p) "status" = some (jsDefault p.status (Json.str "PAUSED")) :=
  objGet_createCampaignBody_status p hx

/-- C3 amended witness: the default applies when status is absent, and an
ACTIVE status is forwarded unchanged. -/
theorem createCampaignBody_status_not_forced_witness :
    objGet (createCampaignBody plainCampaign) "status" = some (Json.str "PAUSED") ∧
    objGet (createCampaignBody activeCampaign) "status" = some (Json.str "ACTIVE") := by
  constructor
  · exact createCampaignBody_status_not_forced plainCampaign
      (by intro kv hkv; simp [plainCampaign] at hkv)
  · exact createCampaignBody_status_not_forced activeCampaign
      (by intro kv hkv; simp [activeCampaign] at hkv)

/-- C2 counterexample: for a specification with campaign status ACTIVE, the
handler issues the campaign-create call (with status ACTIVE in its body)
and succeeds; no validation step rejects the specification. -/
theorem createFromSpec_active_counterexample :
    (createFromSpec c2Client c2Spec).1.trace =
      [ApiCall.campaignCreate (createCampaignBody activeCampaign)] ∧
    objGet (createCampaignBody activeCampaign) "status" = some (Json.str "ACTIVE") ∧
    (createFromSpec c2Client c2Spec).2 =
      SpecResponse.ok { campaign := some { id := "created1" }, ad_sets := [], ads := [] } :=
  ⟨rfl, rfl, rfl⟩

/-- C2 amended: no validation step exists; for any specification whose
campaign status is present and truthy, the campaign-create call is always
issued as the first platform call and its body forwards that status
unchanged (ACTIVE is neither rejected nor rewritten). -/
theorem createFromSpec_active_not_rejected (client : ClientFun) (spec : CampaignSpecInput)
    (v : Json) (hs : spec.campaign.status = some v) (ht : jsTruthy v = true)
    (hx : ∀ kv ∈ spec.campaign.extra, kv.1 ≠ "status") :
    (∃ rest, ((createFromSpec client spec).1).trace =
      ApiCall.campaignCreate (createCampaignBody spec.campaign) :: rest) ∧
    objGet (createCampaignBody spec.campaign) "status" = some v := by
  refine ⟨createFromSpec_trace_head client spec, ?_⟩
  rw [objGet_createCampaignBody_status spec.campaign hx, hs]
  simp [jsDefault, ht]

/-- C2 amended witness: the ACTIVE specification is materialized with a
leading campaign-create call whose body status is ACTIVE. -/
theorem createFromSpec_active_not_rejected_witness :
    (∃ rest, ((createFromSpec c2Client c2Spec).1).trace =
      ApiCall.campaignCreate (createCampaignBody c2Spec.campaign) :: rest) ∧
    objGet (createCampaignBody c2Spec.campaign) "status" = some (Json.str "ACTIVE") :=
  createFromSpec_active_not_rejected c2Client c2Spec (Json.str "ACTIVE") rfl rfl
    (by intro kv hkv; simp [c2Spec, activeCampaign] at hkv)

/-- C6: extraction is total (modelled without exceptions); when the fenced
strategy fails to produce a parse, the result is exactly the fallback
strategy result, and the result is the absent value precisely when both
strategies fail. -/
theorem extractCampaignSpec_fallthrough (s : String) :
    (fencedParse s = none → extractCampaignSpec s = looseParse s) ∧
    (extractCampaignSpec s = none ↔ fencedParse s = none ∧ looseParse s = none) := by
  cases hf : fencedCapture s with
  | none =>
      constructor
      · intro _; simp [extractCampaignSpec, hf]
      · simp [extractCampaignSpec, fencedParse, hf]
  | some cap =>
      cases hj : jsonParse cap with
      | none =>
          constructor
          · intro _; simp [extractCampaignSpec, hf, hj]
          · simp [extractCampaignSpec, fencedParse, hf, hj]
      | some j =>
          constructor
          · intro hfp; simp [fencedParse, hf, hj] at hfp
          · simp [extractCampaignSpec, fencedParse, hf, hj]

/-- C6 witness: on plain prose both strategies fail and extraction returns
the absent value by falling through. -/
theorem extractCampaignSpec_fallthrough_witness :
    extractCampaignSpec "no spec at all" = looseParse "no spec at all" ∧
    extractCampaignSpec "no spec at all" = none := by
  have h := extractCampaignSpec_fallthrough "no spec at all"
  exact ⟨h.1 rfl, h.2.mpr ⟨rfl, rfl⟩⟩

/-- C7: extraction is a pure function of the raw text (determinism is
intrinsic to the embedding), and whenever the fenced strategy parses
successfully its value is returned, taking precedence over any
brace-matched fallback the text may also contain. -/
theorem extractCampaignSpec_fenced_precedence (s : String) (j : Json)
    (hfp : fencedParse s = some j) : extractCampaignSpec s = some j := by
  cases hf : fencedCapture s with
  | none => simp [fencedParse, hf] at hfp
  | some cap =>
      have hj : jsonParse cap = some j := by simpa [fencedParse, hf] using hfp
      simp [extractCampaignSpec, hf, hj]

/-- C7 witness: a text containing both a fenced campaign block and loose
campaign JSON extracts the fenced content. -/
theorem extractCampaignSpec_fenced_precedence_witness :
    extractCampaignSpec precedenceInput =
      some (Json.obj [("campaign", Json.obj [("name", Json.str "X")])]) ∧
    (looseMatch precedenceInput).isSome = true :=
  ⟨extractCampaignSpec_fenced_precedence precedenceInput
      (Json.obj [("campaign", Json.obj [("name", Json.str "X")])]) rfl,
    rfl⟩

/-- C10: the fenced strategy applies no shape check: a fenced json block
without a campaign key is returned as the specification, while the same
JSON without a fence is rejected because only the brace-matched fallback
requires the campaign key. -/
theorem extractCampaignSpec_noShapeCheck :
    extractCampaignSpec noCampaignFenced = some (Json.obj [("foo", Json.str "bar")]) ∧
    objGet [("foo", Json.str "bar")] "campaign" = none ∧
    extractCampaignSpec plainNoCampaign = none :=
  ⟨rfl, rfl, rfl⟩

/-- C1 counterexample: with one campaign, two ad sets and a mock failing on
the second ad-set creation, the handler responds with the bare error
message and the constant step label; it does not return a result carrying
the created campaign, the one created ad set and a failing-step
identifier. -/
theorem createFromSpec_partial_failure_counterexample :
    (createFromSpec c1Client c1Spec).2 = SpecResponse.err "boom" "create-from-spec" ∧
    (createFromSpec c1Client c1Spec).2 ≠
      SpecResponse.ok
        { campaign := some { id := "camp1" }, ad_sets := [{ id := "adset1" }], ads := [] } :=
  ⟨rfl, by decide⟩

/-- C1 amended: when the second ad-set creation fails, the handler stops
immediately (exactly three calls are issued: the campaign, the first ad
set, the second ad set) and responds with a 500 error carrying the
platform error message and the constant step label create-from-spec; the
partial results (the created campaign and the first ad set) are discarded
rather than returned, and no per-step failure identifier is reported. -/
theorem createFromSpec_partial_failure_amended (client : ClientFun)
    (camp : CampaignParams) (a1 a2 : AdSetParams) (rest : List AdSetParams)
    (o0 o1 : PlatformObject) (e : String)
    (h0 : client 0 = Except.ok o0) (h1 : client 1 = Except.ok o1)
    (h2 : client 2 = Except.error e) :
    createFromSpec client
        { campaign := camp, ad_sets := some (a1 :: a2 :: rest), ads := some [] } =
      ({ idx := 3,
         trace := [ApiCall.campaignCreate (createCampaignBody camp),
           ApiCall.adSetCreate (createAdSetBody (bindCampaign a1 o0.id)),
           ApiCall.adSetCreate (createAdSetBody (bindCampaign a2 o0.id))] },
       SpecResponse.err e "create-from-spec") := by
  simp [createFromSpec, runAdSets, runAds, h0, h1, h2]

/-- C1 amended witness: the concrete two-ad-set scenario evaluates to the
three-call trace and the constant-label error response. -/
theorem createFromSpec_partial_failure_amended_witness :
    createFromSpec c1Client c1Spec =
      ({ idx := 3,
         trace := [ApiCall.campaignCreate (createCampaignBody plainCampaign),
           ApiCall.adSetCreate (createAdSetBody (bindCampaign (plainAdSet "A1") "camp1")),
           ApiCall.adSetCreate (createAdSetBody (bindCampaign (plainAdSet "A2") "camp1"))] },
       SpecResponse.err "boom" "create-from-spec") :=
  createFromSpec_partial_failure_amended c1Client plainCampaign (plainAdSet "A1")
    (plainAdSet "A2") [] { id := "camp1" } { id := "adset1" } "boom" rfl rfl rfl

/-- C4: with every platform call succeeding and every ad entry carrying an
object_story_spec, materialization runs the full ad list once per created
ad set (M ad sets and N ads create M times N ads), each creative created
immediately before its ad and each ad bound to the identifier answered for
the ad set of the current outer iteration; the whole run equals the
expected dependency-ordered schedule. -/
theorem createFromSpec_crossProduct (f : Nat → PlatformObject) (camp : CampaignParams)
    (adSets : List AdSetParams) (ads : List AdSpec)
    (hall : ∀ a ∈ ads, hasStorySpec a = true) :
    createFromSpec (okClient f) { campaign := camp, ad_sets := some adSets, ads := some ads } =
      ({ idx := 1 + adSets.length * (1 + 2 * ads.length),
         trace := ApiCall.campaignCreate (createCampaignBody camp) ::
           expectedAdSetsTrace f (f 0).id ads 1 adSets },
       SpecResponse.ok
         { campaign := some (f 0),
           ad_sets := expectedAdSetObjs f ads 1 adSets,
           ads := expectedAllAdsObjs f ads 1 adSets }) ∧
    (expectedAllAdsObjs f ads 1 adSets).length = adSets.length * ads.length := by
  constructor
  · rw [createFromSpec_ok (okClient f) _ (f 0) rfl]
    simp only [Option.getD_some]
    rw [runAdSets_okClient f (f 0).id ads hall adSets 1
      [ApiCall.campaignCreate (createCampaignBody camp)] [] []]
    simp
  · exact expectedAllAdsObjs_length f ads adSets 1

/-- C4 witness: two ad sets and two story-spec ads yield four created ads
in the success run. -/
theorem createFromSpec_crossProduct_witness :
    (createFromSpec (okClient echoClient)
        { campaign := plainCampaign,
          ad_sets := some [plainAdSet "B1", plainAdSet "B2"],
          ads := some [storyAd "Ad1", storyAd "Ad2"] }).2 =
      SpecResponse.ok
        { campaign := some (echoClient 0),
          ad_sets := expectedAdSetObjs echoClient [storyAd "Ad1", storyAd "Ad2"] 1
            [plainAdSet "B1", plainAdSet "B2"],
          ads := expectedAllAdsObjs echoClient [storyAd "Ad1", storyAd "Ad2"] 1
            [plainAdSet "B1", plainAdSet "B2"] } ∧
    (expectedAllAdsObjs echoClient [storyAd "Ad1", storyAd "Ad2"] 1
      [plainAdSet "B1", plainAdSet "B2"]).length = 4 := by
  have h := createFromSpec_crossProduct echoClient plainCampaign
    [plainAdSet "B1", plainAdSet "B2"] [storyAd "Ad1", storyAd "Ad2"]
    (by intro a ha; simp [List.mem_cons] at ha; rcases ha with h1 | h1 <;> subst h1 <;> rfl)
  exact ⟨by rw [h.1], by simpa using h.2⟩

/-- C9: ad entries without a truthy object_story_spec are silently skipped:
for any client the run equals the run on the story-spec-filtered ad list
(no creative or ad call and no result entry for the skipped ones, no error
reported), and a fully successful run returns ok with one ad per
story-spec-carrying entry per ad set. -/
theorem createFromSpec_skips_no_story (camp : CampaignParams)
    (adSets : List AdSetParams) (ads : List AdSpec) :
    (∀ client : ClientFun,
      createFromSpec client { campaign := camp, ad_sets := some adSets, ads := some ads } =
        createFromSpec client
          { campaign := camp, ad_sets := some adSets,
            ads := some (ads.filter (fun a => hasStorySpec a)) }) ∧
    ∀ f : Nat → PlatformObject,
      (createFromSpec (okClient f)
          { campaign := camp, ad_sets := some adSets, ads := some ads }).2 =
        SpecResponse.ok
          { campaign := some (f 0),
            ad_sets := expectedAdSetObjs f (ads.filter (fun a => hasStorySpec a)) 1 adSets,
            ads := expectedAllAdsObjs f (ads.filter (fun a => hasStorySpec a)) 1 adSets } ∧
      (expectedAllAdsObjs f (ads.filter (fun a => hasStorySpec a)) 1 adSets).length =
        adSets.length * (ads.filter (fun a => hasStorySpec a)).length := by
  constructor
  · intro client; exact createFromSpec_filter client camp adSets ads
  · intro f
    constructor
    · rw [createFromSpec_filter (okClient f) camp adSets ads]
      rw [createFromSpec_ok (okClient f) _ (f 0) rfl]
      simp only [Option.getD_some]
      rw [runAdSets_okClient f (f 0).id (ads.filter (fun a => hasStorySpec a))
        (fun a ha => (List.mem_filter.mp ha).2) adSets 1
        [ApiCall.campaignCreate (createCampaignBody camp)] [] []]
      simp
    · exact expectedAllAdsObjs_length f _ adSets 1
